import Mathlib

/-
Verification development for the SigilEngine repository.

The definitions below are a shallow embedding of the Python sources:
  - src/sigilengine/ascii_screen.py  (grid data structure and algorithms)
  - src/utilities/timermodule.py     (cooperative timer)
  - src/sigilengine/canva_thread.py  (canvas actor: state, commands, run loop)
  - src/space.py                     (global registry dictionary SPACE)

Modelling conventions:
  - Python dict-of-dict grid buffers become association lists keyed by
    (row, column) integer pairs; grids built by create_canvas have distinct
    keys, and cell updates preserve the key set, so association-list lookup
    and update coincide with Python dict indexing.
  - A Python value that may be None is an Option.
  - A raised Python exception is an Except.error; code paths that cannot
    raise are total functions.
  - time.time() timestamps and interval arithmetic use rationals.
-/

namespace SigilEngine

/-- A Python character value as stored in a cell: a character, or None
(None can flow in through set_fillvalue with a missing argument). -/
abbrev CharV := Option Char

/-- One cell of a canvas buffer, as built by ASCII_SCREEN.create_canvas:
keys char, owner, visible, canvas_id. -/
structure Cell where
  char : CharV
  owner : String
  visible : Bool
  canvas_id : String
deriving DecidableEq

/-- A partial cell-metadata dictionary, as passed to write_cell: each field
is present (some) or absent (none).  The char field, when present, holds a
CharV (itself possibly Python None). -/
structure PartialCell where
  char : Option CharV := none
  owner : Option String := none
  visible : Option Bool := none
  canvas_id : Option String := none
deriving DecidableEq

/-- Python dict.update: fields present in the metadata replace the cell's. -/
def applyMeta (c : Cell) (m : PartialCell) : Cell :=
  { char := m.char.getD c.char
    owner := m.owner.getD c.owner
    visible := m.visible.getD c.visible
    canvas_id := m.canvas_id.getD c.canvas_id }

/-- The partial-metadata dictionary holding every field of a cell; this is
what the forwarding scan puts into an outgoing packet (it forwards whole
cell dictionaries). -/
def fullMetaOf (c : Cell) : PartialCell :=
  ⟨some c.char, some c.owner, some c.visible, some c.canvas_id⟩

/-- A (row, column) coordinate; Python ints, so negatives are allowed. -/
abbrev Coord := Int × Int

/-- A canvas buffer: Python dict[y][x] -> cell, embedded as an association
list keyed by the (y, x) pair. -/
abbrev Grid := List (Coord × Cell)

/-- buffer[y][x] as an optional lookup (Python raises KeyError on a missing
key; callers of this model branch on none where the source would raise). -/
def lookupCell (g : Grid) (y x : Int) : Option Cell :=
  (g.find? (fun e => e.1 == (y, x))).map (fun e => e.2)

/-- ASCII_SCREEN.create_canvas: nested loops y in range(1, height+1),
x in range(1, width+1); every cell initialized with the same metadata.
There is no dimension validation in the source: a non-positive height or
width just makes the corresponding range empty. -/
def create_canvas (canvas_id owner : String) (height width : Int)
    (fillvalue : CharV) (visible : Bool) : Grid :=
  (List.range height.toNat).flatMap (fun (yi : Nat) =>
    (List.range width.toNat).map (fun (xi : Nat) =>
      ((((yi : Nat) : Int) + 1, ((xi : Nat) : Int) + 1),
        ⟨fillvalue, owner, visible, canvas_id⟩)))

/-- ASCII_SCREEN.create_ref_canvas: hardcoded fill, owner and id. -/
def create_ref_canvas (height width : Int) : Grid :=
  (List.range height.toNat).flatMap (fun (yi : Nat) =>
    (List.range width.toNat).map (fun (xi : Nat) =>
      ((((yi : Nat) : Int) + 1, ((xi : Nat) : Int) + 1),
        ⟨some '·', "ref", true, "ref"⟩)))

/-- ASCII_SCREEN.write_cell: try buffer[y][x].update(metadata); returns
true on success, false when the coordinate is absent (KeyError caught). -/
def write_cell (g : Grid) (y x : Int) (m : PartialCell) : Grid × Bool :=
  if (lookupCell g y x).isSome then
    (g.map (fun e => if e.1 = (y, x) then (e.1, applyMeta e.2 m) else e), true)
  else
    (g, false)

/-- ASCII_SCREEN.zip_and_write: zip chart with metadata (stopping at the
shorter), write each pair, count the successful writes. -/
def zip_and_write (g : Grid) (chart : List Coord)
    (metadata_list : List PartialCell) : Grid × Nat :=
  (chart.zip metadata_list).foldl
    (fun acc p =>
      let r := write_cell acc.1 p.1.1 p.1.2 p.2
      (r.1, acc.2 + if r.2 then 1 else 0))
    (g, 0)

/-- ASCII_SCREEN.box_borders: top/bottom edges for col in range(x, x+width),
then left/right edges for row in range(y+1, y+height-1); every write goes
through write_cell so out-of-bounds border cells are skipped. -/
def box_borders (buffer : Grid) (yx_corner : Coord) (height width : Int)
    (char : CharV) : Grid :=
  let y := yx_corner.1
  let x := yx_corner.2
  let afterTB := (List.range width.toNat).foldl
    (fun g ci =>
      let col := x + ((ci : Nat) : Int)
      let g1 := (write_cell g y col ⟨some char, none, none, none⟩).1
      (write_cell g1 (y + height - 1) col ⟨some char, none, none, none⟩).1)
    buffer
  (List.range (height - 2).toNat).foldl
    (fun g ri =>
      let row := y + 1 + ((ri : Nat) : Int)
      let g1 := (write_cell g row x ⟨some char, none, none, none⟩).1
      (write_cell g1 row (x + width - 1) ⟨some char, none, none, none⟩).1)
    afterTB

/-- Loop body state of ASCII_SCREEN.generate_wrapped_chart, recursing over
the characters of the string: y, x are the current coordinates, originalX
the column the origin started at. -/
def wrap_go (originalX : Int) (width : Int) : Int → Int → List Char → List Coord
  | _, _, [] => []
  | y, x, c :: rest =>
    if c = '\n' then
      wrap_go originalX width (y + 1) originalX rest
    else
      (y, x) ::
        (if (x + 1) - originalX ≥ width then
          wrap_go originalX width (y + 1) originalX rest
        else
          wrap_go originalX width y (x + 1) rest)

/-- ASCII_SCREEN.generate_wrapped_chart: walk the text; a newline advances
the row and resets the column without consuming a coordinate; otherwise
emit (y, x), advance the column, and wrap on reaching width characters
since the line start. -/
def generate_wrapped_chart (origin_yx : Coord) (string : List Char)
    (width : Int) : List Coord :=
  wrap_go origin_yx.2 width origin_yx.1 origin_yx.2 string

/-- ASCII_SCREEN.generate_coords: row-major coordinates of a rectangle,
for y in range(y0, y0+height), x in range(x0, x0+width). -/
def generate_coords (yx_corner : Coord) (height width : Int) : List Coord :=
  (List.range height.toNat).flatMap (fun (yi : Nat) =>
    (List.range width.toNat).map (fun (xi : Nat) =>
      (yx_corner.1 + ((yi : Nat) : Int), yx_corner.2 + ((xi : Nat) : Int))))

/-! ### Timer (src/utilities/timermodule.py) -/

/-- One entry of TIMER.timer_events: interval (an int, per the isinstance
check in TIMER.event), last_trigger (a time.time-style timestamp, rational
in this model), and whether a callable action is attached (action kept
abstract: only its presence matters to control flow). -/
structure TimerEvent where
  interval : Int
  last_trigger : ℚ
  hasAction : Bool
deriving DecidableEq

/-- TIMER.timer_events: a dict from event name to event, embedded as an
association list in insertion order (Python dicts iterate in insertion
order). -/
abbrev TimerState := List (String × TimerEvent)

/-- Python dict assignment d[k] = v: replace in place if the key exists
(keeping its position), else append. -/
def dictSet (ts : TimerState) (name : String) (ev : TimerEvent) : TimerState :=
  if ts.any (fun e => e.1 == name) then
    ts.map (fun e => if e.1 = name then (e.1, ev) else e)
  else
    ts ++ [(name, ev)]

/-- TIMER.event: each keyword argument (name, interval) registers or
replaces an event with last_trigger 0 and no action.  (The source also
accepts an action parameter that its body never uses, and skips non-int
intervals; intervals here are ints by type.) -/
def timer_event (ts : TimerState) (kwargs : List (String × Int)) : TimerState :=
  kwargs.foldl (fun ts p => dictSet ts p.1 ⟨p.2, 0, false⟩) ts

/-- TIMER.action: attach actions to existing events; only names already in
timer_events and callable values take effect, and nothing happens when no
event is registered.  The Bool of each pair models callable(action). -/
def timer_action (ts : TimerState) (kwargs : List (String × Bool)) : TimerState :=
  if ts.length > 0 then
    kwargs.foldl
      (fun ts p =>
        if p.2 then
          ts.map (fun e => if e.1 = p.1 then (e.1, { e.2 with hasAction := true }) else e)
        else ts)
      ts
  else ts

/-- TIMER.update_timer: one pass over the events; every event whose
elapsed time since last_trigger is at least its interval and whose action
is set fires once, advancing last_trigger by exactly one interval.  The
returned list collects the names of the events whose action was invoked,
in iteration order. -/
def update_timer (ts : TimerState) (current_time : ℚ) : TimerState × List String :=
  ts.foldl
    (fun acc e =>
      if current_time - e.2.last_trigger ≥ (e.2.interval : ℚ) ∧ e.2.hasAction then
        (acc.1 ++ [(e.1, { e.2 with last_trigger := e.2.last_trigger + (e.2.interval : ℚ) })],
         acc.2 ++ [e.1])
      else
        (acc.1 ++ [e], acc.2))
    ([], [])

/-! ### Registry (src/space.py) and actor state (src/sigilengine/canva_thread.py) -/

/-- One value of the SPACE dict, as registered by CANVA_THREAD.run; the
queue and thread_obj handles are kept implicit (every registered entry
carries them, and a Queue object is always truthy). -/
structure SpaceEntry where
  owner : String
  height : Int
  width : Int
  visible : Bool
deriving DecidableEq

/-- The global SPACE registry dict, in insertion order. -/
abbrev Space := List (String × SpaceEntry)

/-- SPACE.get(id): optional lookup. -/
def findEntry (sp : Space) (id : String) : Option SpaceEntry :=
  (sp.find? (fun e => e.1 == id)).map (fun e => e.2)

/-- In-place update of the entry stored under an id (a no-op when the id
is absent). -/
def updateEntry (sp : Space) (id : String) (e : SpaceEntry) : Space :=
  sp.map (fun p => if p.1 = id then (p.1, e) else p)

/-- The args dict of a command block; each key is present or absent. -/
structure Args where
  canvas_id : Option String := none
  host : Option String := none
  height : Option Int := none
  width : Option Int := none
  y : Option Int := none
  x : Option Int := none
  fillvalue : CharV := none
deriving DecidableEq

/-- The nested command dict of a packet: a cmd name and an args dict. -/
structure CommandBlock where
  cmd : Option String := none
  args : Args := {}
deriving DecidableEq

/-- A command packet: command block, chart and metadata, any of which a
malformed packet may lack. -/
structure Packet where
  command : Option CommandBlock := none
  chart : Option (List Coord) := none
  metadata : Option (List PartialCell) := none
deriving DecidableEq

/-- The mutable state of one CANVA_THREAD. -/
structure ActorState where
  alive : Bool
  canvas_id : String
  owner : String
  host : Option String
  origin_yx : Coord
  height : Int
  width : Int
  fill_value : CharV
  visible : Bool
  conversion_chart : Option (List Coord)
  canvas : Grid
  host_ref_canvas : Option Grid
  host_height : Option Int
  host_width : Option Int
deriving DecidableEq

/-- The Python exceptions this core can raise. -/
inductive Err where
  | keyError
  | attributeError
  | typeError
deriving DecidableEq

instance {e a : Type _} [DecidableEq e] [DecidableEq a] : DecidableEq (Except e a) :=
  fun x y =>
  match x, y with
  | .ok u, .ok v =>
      if h : u = v then .isTrue (h ▸ rfl)
      else .isFalse (fun hh => h (Except.ok.inj hh))
  | .error u, .error v =>
      if h : u = v then .isTrue (h ▸ rfl)
      else .isFalse (fun hh => h (Except.error.inj hh))
  | .ok _, .error _ => .isFalse (fun hh => Except.noConfusion hh)
  | .error _, .ok _ => .isFalse (fun hh => Except.noConfusion hh)

/-- Python truthiness of self.host: falsy when None or the empty string. -/
def hostTruthy : Option String → Bool
  | none => false
  | some h => h ≠ ""

/-- CANVA_THREAD.check_host: false when self.host is falsy, else whether
the host id is present in SPACE (a present entry dict is truthy). -/
def check_host (st : ActorState) (sp : Space) : Bool :=
  if hostTruthy st.host then
    match st.host with
    | some h => (findEntry sp h).isSome
    | none => false
  else false

/-- CANVA_THREAD.sync_to_space: SPACE[self.canvas_id].update({height,
width, visible}).  Indexing with [] raises KeyError when the id is absent
from SPACE. -/
def sync_to_space (st : ActorState) (sp : Space) : Except Err Space :=
  match findEntry sp st.canvas_id with
  | none => .error .keyError
  | some e =>
      .ok (updateEntry sp st.canvas_id
        { e with height := st.height, width := st.width, visible := st.visible })

/-- CANVA_THREAD.clear_canvas: rebuild the grid from the current state
variables. -/
def clear_canvas (st : ActorState) : ActorState :=
  { st with canvas := (create_canvas st.canvas_id st.owner st.height st.width
      st.fill_value st.visible) }

/-- CANVA_THREAD.sync_host: pull the host dimensions from SPACE, rebuild
the reference overlay with debug borders, and regenerate the conversion
chart; a no-op when no host is set or the host is absent from SPACE. -/
def sync_host (st : ActorState) (sp : Space) : ActorState :=
  if hostTruthy st.host then
    match st.host with
    | none => st
    | some h =>
      match findEntry sp h with
      | none => st
      | some hd =>
          { st with
            host_height := some hd.height
            host_width := some hd.width
            host_ref_canvas := some (box_borders
              (create_ref_canvas hd.height hd.width)
              st.origin_yx st.height st.width (some '#'))
            conversion_chart := some (generate_coords st.origin_yx st.height st.width) }
  else st

/-- CANVA_THREAD.kill: SPACE.pop(self.canvas_id, None) and clear the alive
flag. -/
def kill (st : ActorState) (sp : Space) : ActorState × Space :=
  ({ st with alive := false }, sp.filter (fun p => p.1 != st.canvas_id))

/-- CANVA_THREAD.set_host: silently return when the host id is absent from
SPACE (None is never a SPACE key), else update the host reference and
resync via sync_host. -/
def set_host (st : ActorState) (sp : Space) (host_id : Option String) : ActorState :=
  match host_id with
  | none => st
  | some h =>
    if (findEntry sp h).isSome then
      sync_host { st with host := some h } sp
    else st

/-- CANVA_THREAD.set_origin: update the origin, regenerate the conversion
chart, and resync the host overlay when a host is set. -/
def set_origin (st : ActorState) (sp : Space) (new_origin : Coord) : ActorState :=
  let st1 := { st with
    origin_yx := new_origin
    conversion_chart := some (generate_coords new_origin st.height st.width) }
  if hostTruthy st1.host then sync_host st1 sp else st1

/-- CANVA_THREAD.resize_canvas: set the new dimensions, rebuild the grid,
sync the registry (which raises KeyError when this id is absent), and
resync the host overlay when a host is set. -/
def resize_canvas (st : ActorState) (sp : Space) (new_height new_width : Int) :
    Except Err (ActorState × Space) :=
  let st1 := { st with
    height := new_height
    width := new_width
    canvas := create_canvas st.canvas_id st.owner new_height new_width
      st.fill_value st.visible }
  match sync_to_space st1 sp with
  | .error e => .error e
  | .ok sp1 =>
      .ok (if hostTruthy st1.host then sync_host st1 sp1 else st1, sp1)

/-- CANVA_THREAD.set_fillvalue: store the new fill character (possibly
Python None when the packet lacked the argument) and rebuild the grid,
then resync the host overlay when a host is set. -/
def set_fillvalue (st : ActorState) (sp : Space) (char : CharV) : ActorState :=
  let st1 := { st with
    fill_value := char
    canvas := create_canvas st.canvas_id st.owner st.height st.width char st.visible }
  if hostTruthy st1.host then sync_host st1 sp else st1

/-! ### The forwarding scan and command interpreter
(CANVA_THREAD.parse_packet) -/

/-- One step of the forwarding scan loop in parse_packet: read the cell at
the coordinate (self.canvas[y][x], raising KeyError when absent), and when
its char differs from the fill value append its host-translated coordinate
and the cell itself to the accumulators. -/
def scan_step (canvas : Grid) (fill : CharV) (oy ox : Int)
    (acc : Except Err (List Coord × List Cell)) (c : Coord) :
    Except Err (List Coord × List Cell) :=
  match acc with
  | .error e => .error e
  | .ok fcm =>
    match lookupCell canvas c.1 c.2 with
    | none => .error .keyError
    | some cell =>
      if cell.char ≠ fill then
        .ok (fcm.1 ++ [(oy + (c.1 - 1), ox + (c.2 - 1))], fcm.2 ++ [cell])
      else
        .ok fcm

/-- The forwarding scan of parse_packet: for y in range(1, height+1), for
x in range(1, width+1), collect the non-fill cells and their coordinates
translated to the host (origin_y + (y-1), origin_x + (x-1)). -/
def scan_cells (st : ActorState) : Except Err (List Coord × List Cell) :=
  (generate_coords (1, 1) st.height st.width).foldl
    (scan_step st.canvas st.fill_value st.origin_yx.1 st.origin_yx.2)
    (.ok ([], []))

/-- The tail of the auto_forward / forward_to handlers after the scan:
skip when nothing was collected, otherwise fetch the host entry from SPACE
(SPACE.get(self.host).get("queue") raises AttributeError when the host
vanished; the queue handle of a present entry is always truthy) and
enqueue the rebuilt packet into the host mailbox. -/
def emit_forward (st : ActorState) (sp : Space) (out : CommandBlock)
    (fc : List Coord) (fm : List Cell) :
    Except Err (ActorState × Space × List (String × Packet)) :=
  if fc.isEmpty || fm.isEmpty then
    .ok (st, sp, [])
  else
    match st.host with
    | none => .error .attributeError
    | some h =>
      match findEntry sp h with
      | none => .error .attributeError
      | some _ =>
          .ok (st, sp,
            [(h, { command := some out, chart := some fc,
                   metadata := some (fm.map fullMetaOf) })])

/-- CANVA_THREAD.parse_packet.  The source reads
packet.get("command").get("cmd") before its defensive checks, so a packet
without a command block raises AttributeError (None has no attribute
"get") before any state is touched; its dead `if not command_package`
check and the final else branch both amount to the no-op taken here when
the cmd name matches no handler.  Each handler mirrors one elif branch;
zip(None, _) in the write handlers raises TypeError, as does arithmetic
on a missing resize/set_origin argument. -/
def parse_packet (st : ActorState) (sp : Space) (p : Packet) :
    Except Err (ActorState × Space × List (String × Packet)) :=
  match p.command with
  | none => .error .attributeError
  | some cp =>
    let command := cp.cmd
    let args := cp.args
    if command = some "write" then
      match p.chart, p.metadata with
      | some ch, some md =>
          .ok ({ st with canvas := (zip_and_write st.canvas ch md).1 }, sp, [])
      | _, _ => .error .typeError
    else if command = some "forward_to" then
      match p.chart, p.metadata with
      | some ch, some md =>
        let st1 := { st with canvas := (zip_and_write st.canvas ch md).1 }
        if args.canvas_id = some st.canvas_id then
          .ok (st1, sp, [])
        else if check_host st1 sp then
          match scan_cells st1 with
          | .error e => .error e
          | .ok fcm =>
              emit_forward st1 sp
                { cmd := some "forward_to", args := { canvas_id := args.canvas_id } }
                fcm.1 fcm.2
        else .ok (st1, sp, [])
      | _, _ => .error .typeError
    else if command = some "auto_forward" then
      match p.chart, p.metadata with
      | some ch, some md =>
        let written := (zip_and_write st.canvas ch md).2
        let st1 := { st with canvas := (zip_and_write st.canvas ch md).1 }
        if written > 0 ∧ check_host st1 sp then
          match scan_cells st1 with
          | .error e => .error e
          | .ok fcm =>
              emit_forward st1 sp { cmd := some "auto_forward", args := {} } fcm.1 fcm.2
        else .ok (st1, sp, [])
      | _, _ => .error .typeError
    else if command = some "clear" then
      .ok (clear_canvas st, sp, [])
    else if command = some "resize" then
      match args.height, args.width with
      | some h, some w =>
        match resize_canvas st sp h w with
        | .error e => .error e
        | .ok r => .ok (r.1, r.2, [])
      | _, _ => .error .typeError
    else if command = some "set_origin" then
      match args.y, args.x with
      | some y, some x => .ok (set_origin st sp (y, x), sp, [])
      | _, _ => .error .typeError
    else if command = some "set_host" then
      .ok (set_host st sp args.host, sp, [])
    else if command = some "set_fillvalue" then
      .ok (set_fillvalue st sp args.fillvalue, sp, [])
    else if command = some "!kill" then
      let r := kill st sp
      .ok (r.1, r.2, [])
    else
      .ok (st, sp, [])

/-- One iteration body of CANVA_THREAD.run: dispatch a received packet
through parse_packet; any exception is caught by the bare
`except Exception: continue` of the loop, leaving every piece of state as
it was when the handler raised (for the packets considered here the raise
happens before any mutation).  The emitted messages go to other actors'
mailboxes. -/
def run_step (st : ActorState) (sp : Space) (p : Packet) : ActorState × Space :=
  match parse_packet st sp p with
  | .error _ => (st, sp)
  | .ok r => (r.1, r.2.1)

/-- Whether a packet is the kill command — the only command that clears
the liveness flag which the run loop's `while self.alive` checks. -/
def isKillPacket (p : Packet) : Bool :=
  match p.command with
  | some cp => cp.cmd = some "!kill"
  | none => false

/-! ### Derived notions used to state the claims -/

/-- Whether the cell stored at a coordinate differs from the fill
character (an absent coordinate does not differ). -/
def cellDiffers (g : Grid) (fill : CharV) (c : Coord) : Bool :=
  match lookupCell g c.1 c.2 with
  | some cell => cell.char != fill
  | none => false

/-- The cell stored at a coordinate (meaningful where one is present). -/
def cellAt (g : Grid) (c : Coord) : Cell :=
  (lookupCell g c.1 c.2).getD ⟨none, "", true, ""⟩

/-- Local-to-host coordinate translation used by the forwarding scan. -/
def translateCoord (oy ox : Int) (c : Coord) : Coord :=
  (oy + (c.1 - 1), ox + (c.2 - 1))

/-- Whether a coordinate is a key of the grid. -/
def inKeys (g : Grid) (c : Coord) : Bool :=
  (lookupCell g c.1 c.2).isSome

/-- The loop body of zip_and_write, named for use in the lemmas below. -/
def zaw_step (acc : Grid × Nat) (p : Coord × PartialCell) : Grid × Nat :=
  let r := write_cell acc.1 p.1.1 p.1.2 p.2
  (r.1, acc.2 + if r.2 then 1 else 0)

/-- A small concrete actor used to evaluate the theorems below on closed
inputs: a 2 by 2 canvas hosted on "H" at origin (3, 4). -/
def wsActor : ActorState :=
  { alive := true
    canvas_id := "A"
    owner := "o"
    host := some "H"
    origin_yx := (3, 4)
    height := 2
    width := 2
    fill_value := some '·'
    visible := true
    conversion_chart := none
    canvas := create_canvas "A" "o" 2 2 (some '·') true
    host_ref_canvas := none
    host_height := none
    host_width := none }

/-- A small concrete registry holding the host "H" and the actor "A". -/
def wsSpace : Space := [("H", ⟨"oh", 5, 6, true⟩), ("A", ⟨"o", 2, 2, true⟩)]

/-- A registry whose only entry is registered under the empty string. -/
def wsEmptyIdSpace : Space := [("", ⟨"x", 2, 2, true⟩)]

/-! ### Helper lemmas about grids -/

theorem mem_generate_coords {y0 x0 h w : Int} {c : Coord} :
    c ∈ generate_coords (y0, x0) h w ↔
      y0 ≤ c.1 ∧ c.1 < y0 + h ∧ x0 ≤ c.2 ∧ c.2 < x0 + w := by
  rcases c with ⟨cy, cx⟩
  simp only [generate_coords, List.mem_flatMap, List.mem_map, List.mem_range]
  constructor
  · rintro ⟨yi, hyi, xi, hxi, heq⟩
    simp only [Prod.mk.injEq] at heq
    obtain ⟨h1, h2⟩ := heq
    constructor
    · omega
    · refine ⟨?_, ?_, ?_⟩ <;> omega
  · rintro ⟨h1, h2, h3, h4⟩
    refine ⟨(cy - y0).toNat, by omega, (cx - x0).toNat, by omega, ?_⟩
    simp only [Prod.mk.injEq]
    omega

theorem mem_create_canvas {cid ow : String} {h w : Int} {fill : CharV}
    {vis : Bool} {e : Coord × Cell} :
    e ∈ create_canvas cid ow h w fill vis ↔
      1 ≤ e.1.1 ∧ e.1.1 ≤ h ∧ 1 ≤ e.1.2 ∧ e.1.2 ≤ w ∧
        e.2 = ⟨fill, ow, vis, cid⟩ := by
  rcases e with ⟨⟨cy, cx⟩, cell⟩
  simp only [create_canvas, List.mem_flatMap, List.mem_map, List.mem_range]
  constructor
  · rintro ⟨yi, hyi, xi, hxi, heq⟩
    simp only [Prod.mk.injEq] at heq
    obtain ⟨⟨h1, h2⟩, h3⟩ := heq
    refine ⟨by omega, by omega, by omega, by omega, h3.symm⟩
  · rintro ⟨h1, h2, h3, h4, rfl⟩
    refine ⟨(cy - 1).toNat, by omega, (cx - 1).toNat, by omega, ?_⟩
    simp only [Prod.mk.injEq]
    refine ⟨⟨?_, ?_⟩, trivial⟩ <;> omega

theorem create_canvas_nonpos {cid ow : String} {h w : Int} {fill : CharV}
    {vis : Bool} (hnp : h ≤ 0 ∨ w ≤ 0) :
    create_canvas cid ow h w fill vis = [] := by
  rw [List.eq_nil_iff_forall_not_mem]
  intro e he
  have := mem_create_canvas.mp he
  omega

theorem lookupCell_create_canvas (cid ow : String) (h w : Int) (fill : CharV)
    (vis : Bool) (y x : Int) :
    lookupCell (create_canvas cid ow h w fill vis) y x =
      if 1 ≤ y ∧ y ≤ h ∧ 1 ≤ x ∧ x ≤ w then some ⟨fill, ow, vis, cid⟩
      else none := by
  unfold lookupCell
  split_ifs with hin
  · cases hfind : (create_canvas cid ow h w fill vis).find? (fun e => e.1 == (y, x)) with
    | none =>
        exfalso
        have hmem : ((y, x), (⟨fill, ow, vis, cid⟩ : Cell)) ∈
            create_canvas cid ow h w fill vis := by
          exact mem_create_canvas.mpr ⟨hin.1, hin.2.1, hin.2.2.1, hin.2.2.2, rfl⟩
        have := List.find?_eq_none.mp hfind _ hmem
        simp at this
    | some e =>
        have hp := List.find?_some hfind
        have hm := List.mem_of_find?_eq_some hfind
        have hval := (mem_create_canvas.mp hm).2.2.2.2
        simp only [Option.map_some']
        rw [hval]
  · cases hfind : (create_canvas cid ow h w fill vis).find? (fun e => e.1 == (y, x)) with
    | none => rfl
    | some e =>
        exfalso
        have hp := List.find?_some hfind
        have hm := mem_create_canvas.mp (List.mem_of_find?_eq_some hfind)
        simp only [beq_iff_eq] at hp
        rw [hp] at hm
        exact hin ⟨hm.1, hm.2.1, hm.2.2.1, hm.2.2.2.1⟩

theorem zip_and_write_eq_foldl (g : Grid) (ch : List Coord)
    (md : List PartialCell) :
    zip_and_write g ch md = (ch.zip md).foldl zaw_step (g, 0) := rfl

theorem write_cell_keys (g : Grid) (y x : Int) (m : PartialCell) :
    (write_cell g y x m).1.map Prod.fst = g.map Prod.fst := by
  unfold write_cell
  split
  · rw [List.map_map]
    apply List.map_congr_left
    intro e _
    by_cases h : e.1 = (y, x) <;> simp [Function.comp, h]
  · rfl

theorem lookupCell_isSome_iff (g : Grid) (y x : Int) :
    (lookupCell g y x).isSome = true ↔ (y, x) ∈ g.map Prod.fst := by
  unfold lookupCell
  rw [Option.isSome_map', List.find?_isSome]
  constructor
  · rintro ⟨e, he, hp⟩
    rw [beq_iff_eq] at hp
    exact List.mem_map.mpr ⟨e, he, hp⟩
  · intro hmem
    obtain ⟨e, he, hfst⟩ := List.mem_map.mp hmem
    exact ⟨e, he, by rw [beq_iff_eq]; exact hfst⟩

theorem inKeys_write_cell (g : Grid) (y x : Int) (m : PartialCell) (c : Coord) :
    inKeys (write_cell g y x m).1 c = inKeys g c := by
  unfold inKeys
  have h1 := lookupCell_isSome_iff (write_cell g y x m).1 c.1 c.2
  have h2 := lookupCell_isSome_iff g c.1 c.2
  rw [write_cell_keys] at h1
  by_cases hm : (c.1, c.2) ∈ g.map Prod.fst
  · rw [h1.mpr hm, h2.mpr hm]
  · rw [Bool.eq_false_iff.mpr fun ht => hm (h1.mp ht),
      Bool.eq_false_iff.mpr fun ht => hm (h2.mp ht)]

theorem find?_update_other {g : Grid} {k : Coord} {cy cx : Int} {m : PartialCell}
    (hne : ((cy, cx) : Coord) ≠ k) :
    (g.map (fun e => if e.1 = k then (e.1, applyMeta e.2 m) else e)).find?
        (fun e => e.1 == (cy, cx)) =
      g.find? (fun e => e.1 == (cy, cx)) := by
  induction g with
  | nil => rfl
  | cons e rest ih =>
      simp only [List.map_cons]
      by_cases he : e.1 = k
      · have hp : (e.1 == ((cy, cx) : Coord)) = false := by
          rw [beq_eq_false_iff_ne, he]
          exact fun hk => hne hk.symm
        rw [if_pos he]
        rw [List.find?_cons, List.find?_cons]
        simp only [hp]
        exact ih
      · rw [if_neg he]
        rw [List.find?_cons, List.find?_cons]
        cases hp : (e.1 == ((cy, cx) : Coord)) with
        | true => rfl
        | false => exact ih

theorem lookupCell_write_other (g : Grid) (y x : Int) (m : PartialCell)
    (cy cx : Int) (hne : ((cy, cx) : Coord) ≠ (y, x)) :
    lookupCell (write_cell g y x m).1 cy cx = lookupCell g cy cx := by
  unfold write_cell
  split
  · show lookupCell (g.map (fun e => if e.1 = (y, x) then (e.1, applyMeta e.2 m) else e)) cy cx =
      lookupCell g cy cx
    unfold lookupCell
    rw [find?_update_other hne]
  · rfl

theorem zaw_foldl_count (l : List (Coord × PartialCell)) :
    ∀ (g : Grid) (n : Nat),
      (l.foldl zaw_step (g, n)).2 =
        n + (l.filter (fun p => inKeys g p.1)).length := by
  induction l with
  | nil => intro g n; simp
  | cons p rest ih =>
      intro g n
      rw [List.foldl_cons]
      by_cases hk : inKeys g p.1
      · have hsome : (lookupCell g p.1.1 p.1.2).isSome = true := hk
        have hstep : zaw_step (g, n) p =
            ((write_cell g p.1.1 p.1.2 p.2).1, n + 1) := by
          simp [zaw_step, write_cell, hsome]
        rw [hstep, ih]
        have hfc : (p :: rest).filter (fun p => inKeys g p.1) =
            p :: rest.filter (fun p => inKeys g p.1) := by
          simp [List.filter_cons, hk]
        rw [hfc]
        have hcong : rest.filter (fun q => inKeys (write_cell g p.1.1 p.1.2 p.2).1 q.1) =
            rest.filter (fun q => inKeys g q.1) := by
          apply List.filter_congr
          intro q _
          rw [inKeys_write_cell]
        rw [hcong, List.length_cons]
        omega
      · have hsome : (lookupCell g p.1.1 p.1.2).isSome = false :=
          Bool.eq_false_iff.mpr hk
        have hstep : zaw_step (g, n) p = (g, n) := by
          simp [zaw_step, write_cell, hsome]
        rw [hstep, ih]
        have hfc : (p :: rest).filter (fun p => inKeys g p.1) =
            rest.filter (fun p => inKeys g p.1) := by
          simp [List.filter_cons, Bool.eq_false_iff.mpr hk]
        rw [hfc]

theorem zaw_foldl_keys (l : List (Coord × PartialCell)) :
    ∀ (g : Grid) (n : Nat),
      (l.foldl zaw_step (g, n)).1.map Prod.fst = g.map Prod.fst := by
  induction l with
  | nil => intro g n; rfl
  | cons p rest ih =>
      intro g n
      rw [List.foldl_cons]
      show (rest.foldl zaw_step
          ((zaw_step (g, n) p).1, (zaw_step (g, n) p).2)).1.map Prod.fst = g.map Prod.fst
      rw [ih]
      show (write_cell g p.1.1 p.1.2 p.2).1.map Prod.fst = g.map Prod.fst
      rw [write_cell_keys]

theorem zaw_foldl_lookup (l : List (Coord × PartialCell)) :
    ∀ (g : Grid) (n : Nat) (c : Coord), (∀ p ∈ l, p.1 ≠ c) →
      lookupCell (l.foldl zaw_step (g, n)).1 c.1 c.2 = lookupCell g c.1 c.2 := by
  induction l with
  | nil => intro g n c _; rfl
  | cons p rest ih =>
      intro g n c hnc
      rw [List.foldl_cons]
      have h1 : lookupCell (rest.foldl zaw_step (zaw_step (g, n) p)).1 c.1 c.2 =
          lookupCell (zaw_step (g, n) p).1 c.1 c.2 := by
        have := ih (zaw_step (g, n) p).1 (zaw_step (g, n) p).2 c
          (fun q hq => hnc q (List.mem_cons_of_mem _ hq))
        exact this
      rw [h1]
      have hpc : ((c.1, c.2) : Coord) ≠ (p.1.1, p.1.2) := by
        intro hc
        exact hnc p (List.mem_cons_self _ _) hc.symm
      show lookupCell (write_cell g p.1.1 p.1.2 p.2).1 c.1 c.2 = lookupCell g c.1 c.2
      exact lookupCell_write_other g p.1.1 p.1.2 p.2 c.1 c.2 hpc

theorem scan_foldl (canvas : Grid) (fill : CharV) (oy ox : Int)
    (l : List Coord) :
    ∀ (a : List Coord) (b : List Cell),
      (∀ c ∈ l, (lookupCell canvas c.1 c.2).isSome = true) →
      l.foldl (scan_step canvas fill oy ox) (.ok (a, b)) =
        .ok (a ++ (l.filter (cellDiffers canvas fill)).map (translateCoord oy ox),
             b ++ (l.filter (cellDiffers canvas fill)).map (cellAt canvas)) := by
  induction l with
  | nil => intro a b _; simp
  | cons c rest ih =>
      intro a b hl
      rw [List.foldl_cons]
      obtain ⟨cell, hcell⟩ := Option.isSome_iff_exists.mp
        (hl c (List.mem_cons_self _ _))
      have hdiff : cellDiffers canvas fill c = (cell.char != fill) := by
        simp [cellDiffers, hcell]
      have hat : cellAt canvas c = cell := by
        simp [cellAt, hcell]
      cases hne : (cell.char != fill) with
      | true =>
          have hstep : scan_step canvas fill oy ox (.ok (a, b)) c =
              .ok (a ++ [translateCoord oy ox c], b ++ [cell]) := by
            simp only [scan_step, hcell]
            rw [if_pos (by simpa using hne)]
            rfl
          rw [hstep, ih _ _ (fun d hd => hl d (List.mem_cons_of_mem _ hd))]
          rw [List.filter_cons_of_pos (by rw [hdiff, hne]),
            List.map_cons, List.map_cons, hat]
          simp [List.append_assoc]
      | false =>
          have hstep : scan_step canvas fill oy ox (.ok (a, b)) c =
              .ok (a, b) := by
            simp only [scan_step, hcell]
            rw [if_neg (by simpa using hne)]
          rw [hstep, ih _ _ (fun d hd => hl d (List.mem_cons_of_mem _ hd))]
          rw [List.filter_cons_of_neg (by rw [hdiff, hne]; exact Bool.false_ne_true)]

theorem wrap_go_length (ox w : Int) (s : List Char) :
    ∀ (y x : Int),
      (wrap_go ox w y x s).length = (s.filter (fun c => c != '\n')).length := by
  induction s with
  | nil => intro y x; rfl
  | cons c rest ih =>
      intro y x
      by_cases hc : c = '\n'
      · rw [wrap_go, if_pos hc, List.filter_cons_of_neg (by simp [hc])]
        exact ih _ _
      · rw [wrap_go, if_neg hc, List.filter_cons_of_pos (by simp [hc])]
        by_cases hw : (x + 1) - ox ≥ w
        · rw [if_pos hw, List.length_cons, List.length_cons, ih _ _]
        · rw [if_neg hw, List.length_cons, List.length_cons, ih _ _]

theorem check_host_true_iff (st : ActorState) (sp : Space) :
    check_host st sp = true ↔
      ∃ h, st.host = some h ∧ h ≠ "" ∧ (findEntry sp h).isSome = true := by
  unfold check_host hostTruthy
  cases hh : st.host with
  | none => simp
  | some h =>
      by_cases he : h = ""
      · simp [he]
      · simp [he]

theorem length_filter_compl {α : Type _} (l : List α) (p : α → Bool) :
    (l.filter p).length = l.length - (l.filter (fun a => !(p a))).length := by
  induction l with
  | nil => rfl
  | cons a t ih =>
      have hle : (t.filter (fun a => !(p a))).length ≤ t.length :=
        List.length_filter_le _ _
      cases hp : p a
      · rw [List.filter_cons_of_neg (by simp [hp]),
          List.filter_cons_of_pos (by simp [hp])]
        simp only [List.length_cons]
        omega
      · rw [List.filter_cons_of_pos (by simp [hp]),
          List.filter_cons_of_neg (by simp [hp])]
        simp only [List.length_cons]
        omega

theorem findEntry_updateEntry_self (sp : Space) (id : String) (e : SpaceEntry) :
    findEntry (updateEntry sp id e) id =
      if (findEntry sp id).isSome then some e else none := by
  induction sp with
  | nil => rfl
  | cons p rest ih =>
      unfold updateEntry findEntry
      simp only [List.map_cons, List.find?_cons]
      by_cases hp : p.1 = id
      · rw [if_pos hp]
        have hb : ((id : String) == id) = true := by simp
        simp [hp, hb]
      · rw [if_neg hp]
        have hb : (p.1 == id) = false := by simp [hp]
        simp only [hb]
        unfold updateEntry findEntry at ih
        exact ih

theorem findEntry_updateEntry_other (sp : Space) (id id' : String) (e : SpaceEntry)
    (hne : id' ≠ id) : findEntry (updateEntry sp id e) id' = findEntry sp id' := by
  induction sp with
  | nil => rfl
  | cons p rest ih =>
      unfold updateEntry findEntry
      simp only [List.map_cons, List.find?_cons]
      by_cases hp : p.1 = id
      · rw [if_pos hp]
        have hb : ((id : String) == id') = false := by
          simp only [beq_eq_false_iff_ne]
          exact fun hc => hne hc.symm
        have hb2 : (p.1 == id') = false := by
          rw [hp]
          exact hb
        simp only [hb, hb2]
        unfold updateEntry findEntry at ih
        exact ih
      · rw [if_neg hp]
        cases hb : (p.1 == id') with
        | true => rfl
        | false =>
            simp only []
            unfold updateEntry findEntry at ih
            exact ih

theorem emit_forward_ok {st : ActorState} {sp : Space} {out : CommandBlock}
    {fc : List Coord} {fm : List Cell} {r : ActorState × Space × List (String × Packet)}
    (h : emit_forward st sp out fc fm = .ok r) : r.1 = st ∧ r.2.1 = sp := by
  unfold emit_forward at h
  split_ifs at h
  · cases h
    exact ⟨rfl, rfl⟩
  · split at h
    · cases h
    · split at h
      · cases h
      · cases h
        exact ⟨rfl, rfl⟩

theorem sync_host_alive (st : ActorState) (sp : Space) :
    (sync_host st sp).alive = st.alive := by
  unfold sync_host
  split
  · split
    · rfl
    · split <;> rfl
  · rfl

theorem set_host_alive (st : ActorState) (sp : Space) (hid : Option String) :
    (set_host st sp hid).alive = st.alive := by
  unfold set_host
  split
  · rfl
  · split
    · rw [sync_host_alive]
    · rfl

theorem set_origin_alive (st : ActorState) (sp : Space) (o : Coord) :
    (set_origin st sp o).alive = st.alive := by
  unfold set_origin
  dsimp only
  split
  · rw [sync_host_alive]
  · rfl

theorem set_fillvalue_alive (st : ActorState) (sp : Space) (c : CharV) :
    (set_fillvalue st sp c).alive = st.alive := by
  unfold set_fillvalue
  dsimp only
  split
  · rw [sync_host_alive]
  · rfl

theorem resize_canvas_alive {st : ActorState} {sp : Space} {h w : Int}
    {r : ActorState × Space} (hr : resize_canvas st sp h w = .ok r) :
    r.1.alive = st.alive := by
  unfold resize_canvas at hr
  dsimp only at hr
  split at hr
  · cases hr
  · cases hr
    split
    · rw [sync_host_alive]
    · rfl

/-! ### Claim theorems -/

/-- C1, counterexample.  With interval 1, last_trigger 0 and an attached
action, a single update_timer call at time 3.5 invokes the callback exactly
once — not the 3 times the claim states: update_timer makes one pass over
the events and fires each at most once per call. -/
theorem single_poll_fires_once_not_thrice :
    (update_timer [("e", ⟨1, 0, true⟩)] (7/2)).2.length = 1 ∧
    ¬ (update_timer [("e", ⟨1, 0, true⟩)] (7/2)).2.length = 3 := by
  constructor
  · norm_num [update_timer]
  · norm_num [update_timer]

/-- C1, amended.  For an event with interval 1 whose elapsed time is 3.5
intervals, each of the next three update_timer calls (at that same time)
fires the callback exactly once and advances last_trigger by exactly one
interval (never to the current time), and a fourth call does not fire. -/
theorem timer_catchup_incremental (L : ℚ) :
    update_timer [("e", ⟨1, L, true⟩)] (L + 7/2) =
      ([("e", ⟨1, L + 1, true⟩)], ["e"]) ∧
    update_timer [("e", ⟨1, L + 1, true⟩)] (L + 7/2) =
      ([("e", ⟨1, L + 2, true⟩)], ["e"]) ∧
    update_timer [("e", ⟨1, L + 2, true⟩)] (L + 7/2) =
      ([("e", ⟨1, L + 3, true⟩)], ["e"]) ∧
    update_timer [("e", ⟨1, L + 3, true⟩)] (L + 7/2) =
      ([("e", ⟨1, L + 3, true⟩)], []) := by
  refine ⟨?_, ?_, ?_, ?_⟩ <;> norm_num [update_timer] <;> ring_nf

/-- C10.  TIMER.event initializes last_trigger to 0 (the epoch), not to
the registration time; TIMER.action attaches the callback; and a
update_timer call at time t fires an armed event exactly once and advances
last_trigger by exactly its interval whenever t - last_trigger is at least
the interval, and leaves it untouched (no fire) otherwise — so the event
fires on the very first poll after registration (any wall-clock t at least
the interval) and keeps firing once per poll while it lags behind. -/
theorem timer_epoch_registration_spec (i : Int) :
    timer_event [] [("e", i)] = [("e", ⟨i, 0, false⟩)] ∧
    timer_action (timer_event [] [("e", i)]) [("e", true)] =
      [("e", ⟨i, 0, true⟩)] ∧
    (∀ L t : ℚ, (i : ℚ) ≤ t - L →
      update_timer [("e", ⟨i, L, true⟩)] t = ([("e", ⟨i, L + (i : ℚ), true⟩)], ["e"])) ∧
    (∀ L t : ℚ, ¬ ((i : ℚ) ≤ t - L) →
      update_timer [("e", ⟨i, L, true⟩)] t = ([("e", ⟨i, L, true⟩)], [])) := by
  refine ⟨?_, ?_, ?_, ?_⟩
  · rfl
  · rfl
  · intro L t h
    simp [update_timer, h]
  · intro L t h
    simp [update_timer, h]

/-- C10, witness: interval 1, registration-time poll at wall-clock 5 fires
once and advances last_trigger to 0 + 1; a poll only half an interval
ahead does not fire. -/
theorem timer_epoch_registration_witness :
    update_timer [("e", ⟨1, 0, true⟩)] 5 =
      ([("e", ⟨1, 0 + ((1 : Int) : ℚ), true⟩)], ["e"]) ∧
    update_timer [("e", ⟨1, 4, true⟩)] (9/2) = ([("e", ⟨1, 4, true⟩)], []) :=
  ⟨(timer_epoch_registration_spec 1).2.2.1 0 5 (by norm_num),
   (timer_epoch_registration_spec 1).2.2.2 4 (9/2) (by norm_num)⟩

/-- C4, counterexample.  create_canvas with height 0 does not fail and
signals no InvalidDimensions error: the source has no dimension check and
no exception path at all — range(1, 0 + 1) is simply empty, so an empty
grid is returned normally. -/
theorem create_canvas_zero_height_returns_empty :
    create_canvas "c" "o" 0 3 (some '·') true = [] ∧
    lookupCell (create_canvas "c" "o" 0 3 (some '·') true) 1 1 = none := by
  constructor
  · decide
  · decide

/-- C4, amended.  create_canvas maps exactly the coordinates of
[1..height] x [1..width] to a cell carrying the given fill character,
owner, visibility and canvas id (and no other coordinate exists); with a
non-positive height or width it returns the empty grid without signaling
any error. -/
theorem create_canvas_characterization (cid ow : String) (h w : Int)
    (fill : CharV) (vis : Bool) :
    (∀ y x : Int,
      lookupCell (create_canvas cid ow h w fill vis) y x =
        if 1 ≤ y ∧ y ≤ h ∧ 1 ≤ x ∧ x ≤ w then some ⟨fill, ow, vis, cid⟩
        else none) ∧
    (h ≤ 0 ∨ w ≤ 0 → create_canvas cid ow h w fill vis = []) := by
  constructor
  · intro y x
    exact lookupCell_create_canvas cid ow h w fill vis y x
  · intro hnp
    exact create_canvas_nonpos hnp

/-- C4, witness: a 2 by 3 grid holds the initialized cell at (1, 2) and
nothing at (3, 1); a 0 by 3 request yields the empty grid. -/
theorem create_canvas_characterization_witness :
    lookupCell (create_canvas "c" "o" 2 3 (some '·') true) 1 2 =
      some ⟨some '·', "o", true, "c"⟩ ∧
    lookupCell (create_canvas "c" "o" 2 3 (some '·') true) 3 1 = none ∧
    create_canvas "c" "o" 0 3 (some '·') true = [] :=
  ⟨((create_canvas_characterization "c" "o" 2 3 (some '·') true).1 1 2).trans
      (by decide),
   ((create_canvas_characterization "c" "o" 2 3 (some '·') true).1 3 1).trans
      (by decide),
   (create_canvas_characterization "c" "o" 0 3 (some '·') true).2
      (Or.inl (by decide))⟩

/-- C5.  The wrapping chart generator: "AB\nCD" at origin (1,1) with width
10 yields [(1,1),(1,2),(2,1),(2,2)]; "ABCDE" with width 2 yields
[(1,1),(1,2),(2,1),(2,2),(3,1)]; and in general every non-newline
character consumes exactly one coordinate while newline characters consume
none (the chart length equals the number of non-newline characters). -/
theorem generate_wrapped_chart_spec :
    generate_wrapped_chart (1, 1) ['A', 'B', '\n', 'C', 'D'] 10 =
      [(1, 1), (1, 2), (2, 1), (2, 2)] ∧
    generate_wrapped_chart (1, 1) ['A', 'B', 'C', 'D', 'E'] 2 =
      [(1, 1), (1, 2), (2, 1), (2, 2), (3, 1)] ∧
    ∀ (origin : Coord) (s : List Char) (w : Int),
      (generate_wrapped_chart origin s w).length =
        (s.filter (fun c => c != '\n')).length :=
  ⟨by decide, by decide,
   fun origin s w => wrap_go_length origin.2 w s origin.1 origin.2⟩

/-- C6.  zip_and_write pairs chart and metadata positionally up to the
shorter length and returns the number of pairs whose coordinate is a key
of the grid (total pairs minus out-of-bounds pairs); write_cell at an
out-of-bounds coordinate returns false and leaves the grid untouched
rather than raising; and every cell at a coordinate not named by the
zipped chart is left unchanged. -/
theorem zip_and_write_spec (g : Grid) (ch : List Coord)
    (md : List PartialCell) :
    (ch.zip md).length = min ch.length md.length ∧
    (zip_and_write g ch md).2 =
      (ch.zip md).length -
        ((ch.zip md).filter (fun p => !(inKeys g p.1))).length ∧
    (∀ (y x : Int) (m : PartialCell), inKeys g (y, x) = false →
      write_cell g y x m = (g, false)) ∧
    (∀ c : Coord, (∀ p ∈ ch.zip md, p.1 ≠ c) →
      lookupCell (zip_and_write g ch md).1 c.1 c.2 = lookupCell g c.1 c.2) := by
  refine ⟨List.length_zip ch md, ?_, ?_, ?_⟩
  · rw [zip_and_write_eq_foldl, zaw_foldl_count, Nat.zero_add,
      ← length_filter_compl]
  · intro y x m hout
    unfold write_cell
    rw [if_neg]
    intro hsome
    rw [show (lookupCell g y x).isSome = inKeys g (y, x) from rfl, hout] at hsome
    exact Bool.false_ne_true hsome
  · intro c hc
    rw [zip_and_write_eq_foldl]
    exact zaw_foldl_lookup (ch.zip md) g 0 c hc

/-- C6, witness: on a 2 by 2 grid, one in-bounds pair and one
out-of-bounds pair give count 1, the out-of-bounds write reports false
without touching the grid, and the untouched cell (2, 2) is unchanged. -/
theorem zip_and_write_spec_witness :
    (zip_and_write (create_canvas "c" "o" 2 2 (some '·') true)
      [(1, 1), (5, 5)] [⟨some (some 'A'), none, none, none⟩,
        ⟨some (some 'B'), none, none, none⟩]).2 = 1 ∧
    write_cell (create_canvas "c" "o" 2 2 (some '·') true) 5 5
      ⟨some (some 'B'), none, none, none⟩ =
      (create_canvas "c" "o" 2 2 (some '·') true, false) ∧
    lookupCell (zip_and_write (create_canvas "c" "o" 2 2 (some '·') true)
      [(1, 1), (5, 5)] [⟨some (some 'A'), none, none, none⟩,
        ⟨some (some 'B'), none, none, none⟩]).1 2 2 =
      lookupCell (create_canvas "c" "o" 2 2 (some '·') true) 2 2 := by
  refine ⟨?_, ?_, ?_⟩
  · rw [(zip_and_write_spec (create_canvas "c" "o" 2 2 (some '·') true)
      [(1, 1), (5, 5)] [⟨some (some 'A'), none, none, none⟩,
        ⟨some (some 'B'), none, none, none⟩]).2.1]
    decide
  · exact (zip_and_write_spec (create_canvas "c" "o" 2 2 (some '·') true)
      [(1, 1), (5, 5)] [⟨some (some 'A'), none, none, none⟩,
        ⟨some (some 'B'), none, none, none⟩]).2.2.1 5 5
      ⟨some (some 'B'), none, none, none⟩ (by decide)
  · exact (zip_and_write_spec (create_canvas "c" "o" 2 2 (some '·') true)
      [(1, 1), (5, 5)] [⟨some (some 'A'), none, none, none⟩,
        ⟨some (some 'B'), none, none, none⟩]).2.2.2 (2, 2) (by decide)

theorem sync_host_present (st : ActorState) (sp : Space) (h : String)
    (e : SpaceEntry) (hh : st.host = some h) (hne : h ≠ "")
    (hf : findEntry sp h = some e) :
    sync_host st sp =
      { st with
        host_height := some e.height
        host_width := some e.width
        host_ref_canvas := some (box_borders (create_ref_canvas e.height e.width)
          st.origin_yx st.height st.width (some '#'))
        conversion_chart := some (generate_coords st.origin_yx st.height st.width) } := by
  unfold sync_host
  rw [hh]
  rw [show hostTruthy (some h) = true from by simp [hostTruthy, hne]]
  rw [if_pos rfl]
  dsimp only
  rw [hf]

/-- C7, counterexample.  sync_to_space with the actor's id absent from the
registry raises KeyError (SPACE[id] is a plain dict index), so it is not
the silent no-op the claim states. -/
theorem sync_to_space_absent_raises :
    sync_to_space wsActor [] = .error .keyError ∧
    ¬ sync_to_space wsActor [] = .ok [] := by
  constructor
  · decide
  · decide

/-- C7, amended.  When the actor's id is absent from the registry,
sync_to_space raises KeyError (caught only by the run loop's blanket
handler) and the registry is not modified; when the id is present it
updates exactly that entry's height, width and visibility, leaving every
other entry unchanged. -/
theorem sync_to_space_spec (st : ActorState) (sp : Space) :
    (findEntry sp st.canvas_id = none →
      sync_to_space st sp = .error .keyError) ∧
    (∀ e, findEntry sp st.canvas_id = some e →
      ∃ sp', sync_to_space st sp = .ok sp' ∧
        findEntry sp' st.canvas_id =
          some ({ e with height := st.height, width := st.width, visible := st.visible }) ∧
        ∀ id, id ≠ st.canvas_id → findEntry sp' id = findEntry sp id) := by
  constructor
  · intro h
    unfold sync_to_space
    rw [h]
  · intro e h
    refine ⟨updateEntry sp st.canvas_id
      { e with height := st.height, width := st.width, visible := st.visible },
      ?_, ?_, ?_⟩
    · unfold sync_to_space
      rw [h]
    · rw [findEntry_updateEntry_self, h]
      rfl
    · intro id hne
      exact findEntry_updateEntry_other sp st.canvas_id id _ hne

/-- C7, witness: on the empty registry the call errors; on a registry
holding "A" it produces a registry whose "A" entry carries the synced
fields while "H" is untouched. -/
theorem sync_to_space_spec_witness :
    sync_to_space wsActor [] = .error .keyError ∧
    (∃ sp', sync_to_space wsActor wsSpace = .ok sp' ∧
      findEntry sp' wsActor.canvas_id =
        some ({ (⟨"o", 2, 2, true⟩ : SpaceEntry) with height := wsActor.height, width := wsActor.width, visible := wsActor.visible }) ∧
      ∀ id, id ≠ wsActor.canvas_id → findEntry sp' id = findEntry wsSpace id) :=
  ⟨(sync_to_space_spec wsActor []).1 (by decide),
   (sync_to_space_spec wsActor wsSpace).2 ⟨"o", 2, 2, true⟩ (by decide)⟩

/-- C9, counterexample.  When the empty string is itself a registered id,
set_host "" finds it present, updates the host reference — and then skips
the resync entirely, because sync_host tests the host with Python
truthiness and "" is falsy: the host dimensions stay none and no overlay
is built, contradicting the claim that any present id is resynced. -/
theorem set_host_empty_id_skips_resync :
    (findEntry wsEmptyIdSpace "").isSome = true ∧
    (set_host wsActor wsEmptyIdSpace (some "")).host = some "" ∧
    (set_host wsActor wsEmptyIdSpace (some "")).host_height = none ∧
    (set_host wsActor wsEmptyIdSpace (some "")).host_ref_canvas = none := by
  refine ⟨?_, ?_, ?_, ?_⟩ <;> decide

/-- C9, amended.  set_host with an id absent from the registry (or a
missing argument) is silently ignored: the state is returned unchanged,
with host reference, overlay, host dimensions and conversion chart all as
they were.  set_host with a present non-empty id updates the host
reference and resyncs overlay, host dimensions and conversion chart from
the host's registry entry; a present empty-string id only updates the
host reference (the resync is skipped because "" is falsy). -/
theorem set_host_spec (st : ActorState) (sp : Space) :
    set_host st sp none = st ∧
    (∀ h, findEntry sp h = none → set_host st sp (some h) = st) ∧
    (∀ h e, findEntry sp h = some e → h ≠ "" →
      set_host st sp (some h) =
        { st with
          host := some h
          host_height := some e.height
          host_width := some e.width
          host_ref_canvas := some (box_borders (create_ref_canvas e.height e.width)
            st.origin_yx st.height st.width (some '#'))
          conversion_chart := some (generate_coords st.origin_yx st.height st.width) }) ∧
    (∀ e, findEntry sp "" = some e →
      set_host st sp (some "") = { st with host := some "" }) := by
  refine ⟨rfl, ?_, ?_, ?_⟩
  · intro h hf
    show (if (findEntry sp h).isSome = true then
      sync_host { st with host := some h } sp else st) = st
    rw [hf]
    rfl
  · intro h e hf hne
    show (if (findEntry sp h).isSome = true then
      sync_host { st with host := some h } sp else st) = _
    rw [hf]
    rw [if_pos (show (some e).isSome = true from rfl)]
    rw [sync_host_present { st with host := some h } sp h e rfl hne hf]
  · intro e hf
    show (if (findEntry sp "").isSome = true then
      sync_host { st with host := some "" } sp else st) = _
    rw [hf]
    rw [if_pos (show (some e).isSome = true from rfl)]
    unfold sync_host
    rw [show hostTruthy ({ st with host := some "" } : ActorState).host = false
      from rfl]
    rw [if_neg (by simp)]

/-- C9, witness: absent host id leaves the state untouched; present id "H"
updates host and resyncs dimensions, overlay and conversion chart;
present id "" updates only the host reference. -/
theorem set_host_spec_witness :
    set_host wsActor [] (some "H") = wsActor ∧
    set_host wsActor wsSpace (some "H") =
      { wsActor with
        host := some "H"
        host_height := some 5
        host_width := some 6
        host_ref_canvas := some (box_borders (create_ref_canvas 5 6)
          wsActor.origin_yx wsActor.height wsActor.width (some '#'))
        conversion_chart := some (generate_coords wsActor.origin_yx
          wsActor.height wsActor.width) } ∧
    set_host wsActor wsEmptyIdSpace (some "") = { wsActor with host := some "" } :=
  ⟨(set_host_spec wsActor []).2.1 "H" (by decide),
   (set_host_spec wsActor wsSpace).2.2.1 "H" ⟨"oh", 5, 6, true⟩
     (by decide) (by decide),
   (set_host_spec wsActor wsEmptyIdSpace).2.2.2 ⟨"x", 2, 2, true⟩ (by decide)⟩

theorem parse_auto_forward_eq (st : ActorState) (sp : Space) (a : Args)
    (ch : List Coord) (md : List PartialCell) :
    parse_packet st sp ⟨some ⟨some "auto_forward", a⟩, some ch, some md⟩ =
      (let written := (zip_and_write st.canvas ch md).2
       let st1 : ActorState := { st with canvas := (zip_and_write st.canvas ch md).1 }
       if written > 0 ∧ check_host st1 sp then
         match scan_cells st1 with
         | .error e => .error e
         | .ok fcm =>
             emit_forward st1 sp { cmd := some "auto_forward", args := {} }
               fcm.1 fcm.2
       else .ok (st1, sp, [])) := rfl

theorem scan_cells_ok (st : ActorState)
    (hwf : ∀ c ∈ generate_coords (1, 1) st.height st.width,
      (lookupCell st.canvas c.1 c.2).isSome = true) :
    scan_cells st = .ok
      (((generate_coords (1, 1) st.height st.width).filter
          (cellDiffers st.canvas st.fill_value)).map
            (translateCoord st.origin_yx.1 st.origin_yx.2),
       ((generate_coords (1, 1) st.height st.width).filter
          (cellDiffers st.canvas st.fill_value)).map (cellAt st.canvas)) := by
  unfold scan_cells
  rw [scan_foldl st.canvas st.fill_value st.origin_yx.1 st.origin_yx.2
    (generate_coords (1, 1) st.height st.width) [] [] hwf]
  rw [List.nil_append, List.nil_append]

theorem emit_forward_cases (st : ActorState) (sp : Space) (out : CommandBlock)
    (fc : List Coord) (fm : List Cell) (h : String)
    (hh : st.host = some h) (hf : (findEntry sp h).isSome = true) :
    emit_forward st sp out fc fm =
      if fc = [] ∨ fm = [] then .ok (st, sp, [])
      else .ok (st, sp, [(h, { command := some out, chart := some fc,
                               metadata := some (fm.map fullMetaOf) })]) := by
  unfold emit_forward
  by_cases he : fc = [] ∨ fm = []
  · have hb : (fc.isEmpty || fm.isEmpty) = true := by
      rcases he with he | he <;> simp [he]
    rw [if_pos hb, if_pos he]
  · have hb : (fc.isEmpty || fm.isEmpty) = false := by
      rcases not_or.mp he with ⟨h1, h2⟩
      simp [List.isEmpty_iff, h1, h2]
    rw [if_neg (by rw [hb]; exact Bool.false_ne_true), if_neg he]
    rw [hh]
    dsimp only
    obtain ⟨e, hfe⟩ := Option.isSome_iff_exists.mp hf
    rw [hfe]

/-- C2.  An auto_forward packet first writes its chart/metadata onto the
actor's own grid; then, exactly when at least one cell was written, the
host check passes and at least one cell of the (updated) grid differs from
the fill character, it enqueues into the host's mailbox one auto_forward
packet holding precisely the differing cells in row-major order, each
coordinate translated by (origin_y + y - 1, origin_x + x - 1); otherwise
(zero differing cells, no usable host, or zero cells written) nothing is
enqueued. -/
theorem auto_forward_spec (st : ActorState) (sp : Space) (a : Args)
    (ch : List Coord) (md : List PartialCell)
    (hwf : ∀ c ∈ generate_coords (1, 1) st.height st.width,
      (lookupCell (zip_and_write st.canvas ch md).1 c.1 c.2).isSome = true) :
    parse_packet st sp ⟨some ⟨some "auto_forward", a⟩, some ch, some md⟩ =
      .ok ({ st with canvas := (zip_and_write st.canvas ch md).1 }, sp,
        (let canvas1 := (zip_and_write st.canvas ch md).1
         let diffs := (generate_coords (1, 1) st.height st.width).filter
           (cellDiffers canvas1 st.fill_value)
         if (zip_and_write st.canvas ch md).2 > 0 ∧ check_host st sp ∧ diffs ≠ []
         then
           [(st.host.getD "",
             { command := some ⟨some "auto_forward", {}⟩,
               chart := some (diffs.map
                 (translateCoord st.origin_yx.1 st.origin_yx.2)),
               metadata := some ((diffs.map (cellAt canvas1)).map fullMetaOf) })]
         else [])) := by
  rw [parse_auto_forward_eq]
  dsimp only
  by_cases h1 : (zip_and_write st.canvas ch md).2 > 0 ∧ check_host st sp
  · have h1L : (zip_and_write st.canvas ch md).2 > 0 ∧
        check_host { st with canvas := (zip_and_write st.canvas ch md).1 } sp :=
      h1
    rw [if_pos h1L]
    rw [scan_cells_ok { st with canvas := (zip_and_write st.canvas ch md).1 } hwf]
    dsimp only
    obtain ⟨h, hh, hne, hfind⟩ := (check_host_true_iff st sp).mp h1.2
    rw [emit_forward_cases { st with canvas := (zip_and_write st.canvas ch md).1 }
      sp _ _ _ h hh hfind]
    by_cases h2 : (generate_coords (1, 1) st.height st.width).filter
        (cellDiffers (zip_and_write st.canvas ch md).1 st.fill_value) = []
    · rw [if_pos (Or.inl (by rw [h2]; rfl))]
      rw [if_neg (fun hcon => hcon.2.2 h2)]
    · rw [if_neg (fun hcon => by
        rcases hcon with hc | hc
        · exact h2 (List.map_eq_nil_iff.mp hc)
        · exact h2 (List.map_eq_nil_iff.mp hc))]
      rw [if_pos ⟨h1.1, h1.2, h2⟩]
      rw [hh]
      rfl
  · have h1L : ¬ ((zip_and_write st.canvas ch md).2 > 0 ∧
        check_host { st with canvas := (zip_and_write st.canvas ch md).1 } sp) :=
      h1
    rw [if_neg h1L]
    rw [if_neg (fun hcon => h1 ⟨hcon.1, hcon.2.1⟩)]

/-- C2, witness: a 2 by 2 actor hosted on "H" at origin (3, 4) receives an
auto_forward writing 'Z' at (1, 1); it writes locally and forwards exactly
that one differing cell to "H" at translated coordinate (3, 4). -/
theorem auto_forward_spec_witness :
    parse_packet wsActor wsSpace
      ⟨some ⟨some "auto_forward", {}⟩, some [(1, 1)],
        some [⟨some (some 'Z'), none, none, none⟩]⟩ =
      .ok ({ wsActor with canvas := (zip_and_write wsActor.canvas [(1, 1)]
          [⟨some (some 'Z'), none, none, none⟩]).1 },
        wsSpace,
        [("H", { command := some ⟨some "auto_forward", ({} : Args)⟩,
                 chart := some [(3, 4)],
                 metadata := some [⟨some (some 'Z'), some "o", some true,
                   some "A"⟩] })]) :=
  (auto_forward_spec wsActor wsSpace {} [(1, 1)]
    [⟨some (some 'Z'), none, none, none⟩] (by decide)).trans (by decide)

theorem parse_forward_to_eq (st : ActorState) (sp : Space) (a : Args)
    (ch : List Coord) (md : List PartialCell) :
    parse_packet st sp ⟨some ⟨some "forward_to", a⟩, some ch, some md⟩ =
      (let st1 : ActorState := { st with canvas := (zip_and_write st.canvas ch md).1 }
       if a.canvas_id = some st.canvas_id then .ok (st1, sp, [])
       else if check_host st1 sp then
         match scan_cells st1 with
         | .error e => .error e
         | .ok fcm =>
             emit_forward st1 sp
               { cmd := some "forward_to", args := { canvas_id := a.canvas_id } }
               fcm.1 fcm.2
       else .ok (st1, sp, [])) := rfl

/-- C3.  A forward_to packet always writes its chart/metadata locally.
When its target id equals the receiving actor's own id, processing stops
there: nothing is enqueued anywhere, even if a host is configured.
Otherwise, when the host check passes, the actor performs the same
scan-for-non-fill-cells/translate/forward step as auto_forward (with no
written-count condition), preserving the forward_to command name and the
target id in the outgoing packet. -/
theorem forward_to_spec (st : ActorState) (sp : Space) (a : Args)
    (ch : List Coord) (md : List PartialCell)
    (hwf : ∀ c ∈ generate_coords (1, 1) st.height st.width,
      (lookupCell (zip_and_write st.canvas ch md).1 c.1 c.2).isSome = true) :
    parse_packet st sp ⟨some ⟨some "forward_to", a⟩, some ch, some md⟩ =
      .ok ({ st with canvas := (zip_and_write st.canvas ch md).1 }, sp,
        (let canvas1 := (zip_and_write st.canvas ch md).1
         let diffs := (generate_coords (1, 1) st.height st.width).filter
           (cellDiffers canvas1 st.fill_value)
         if a.canvas_id = some st.canvas_id then []
         else if check_host st sp ∧ diffs ≠ [] then
           [(st.host.getD "",
             { command := some ⟨some "forward_to", { canvas_id := a.canvas_id }⟩,
               chart := some (diffs.map
                 (translateCoord st.origin_yx.1 st.origin_yx.2)),
               metadata := some ((diffs.map (cellAt canvas1)).map fullMetaOf) })]
         else [])) := by
  rw [parse_forward_to_eq]
  dsimp only
  by_cases ht : a.canvas_id = some st.canvas_id
  · rw [if_pos ht, if_pos ht]
  · rw [if_neg ht, if_neg ht]
    by_cases hch : check_host st sp
    · have hchL : check_host
          { st with canvas := (zip_and_write st.canvas ch md).1 } sp = true := hch
      rw [if_pos hchL]
      rw [scan_cells_ok { st with canvas := (zip_and_write st.canvas ch md).1 } hwf]
      dsimp only
      obtain ⟨h, hh, hne, hfind⟩ := (check_host_true_iff st sp).mp hch
      rw [emit_forward_cases { st with canvas := (zip_and_write st.canvas ch md).1 }
        sp _ _ _ h hh hfind]
      by_cases h2 : (generate_coords (1, 1) st.height st.width).filter
          (cellDiffers (zip_and_write st.canvas ch md).1 st.fill_value) = []
      · rw [if_pos (Or.inl (by rw [h2]; rfl))]
        rw [if_neg (fun hcon => hcon.2 h2)]
      · rw [if_neg (fun hcon => by
          rcases hcon with hc | hc
          · exact h2 (List.map_eq_nil_iff.mp hc)
          · exact h2 (List.map_eq_nil_iff.mp hc))]
        rw [if_pos ⟨hch, h2⟩]
        rw [hh]
        rfl
    · have hchL : ¬ check_host
          { st with canvas := (zip_and_write st.canvas ch md).1 } sp = true := hch
      rw [if_neg hchL]
      rw [if_neg (fun hcon => hch hcon.1)]

/-- C3, witness: with a host configured, a forward_to targeting the
actor's own id "A" writes locally and enqueues nothing; one targeting "T"
forwards the single differing cell to host "H" with the forward_to command
and target id preserved. -/
theorem forward_to_spec_witness :
    parse_packet wsActor wsSpace
      ⟨some ⟨some "forward_to", { canvas_id := some "A" }⟩, some [(1, 1)],
        some [⟨some (some 'Z'), none, none, none⟩]⟩ =
      .ok ({ wsActor with canvas := (zip_and_write wsActor.canvas [(1, 1)]
          [⟨some (some 'Z'), none, none, none⟩]).1 }, wsSpace, []) ∧
    parse_packet wsActor wsSpace
      ⟨some ⟨some "forward_to", { canvas_id := some "T" }⟩, some [(1, 1)],
        some [⟨some (some 'Z'), none, none, none⟩]⟩ =
      .ok ({ wsActor with canvas := (zip_and_write wsActor.canvas [(1, 1)]
          [⟨some (some 'Z'), none, none, none⟩]).1 },
        wsSpace,
        [("H", { command := some ⟨some "forward_to",
                   ({ canvas_id := some "T" } : Args)⟩,
                 chart := some [(3, 4)],
                 metadata := some [⟨some (some 'Z'), some "o", some true,
                   some "A"⟩] })]) :=
  ⟨(forward_to_spec wsActor wsSpace { canvas_id := some "A" } [(1, 1)]
      [⟨some (some 'Z'), none, none, none⟩] (by decide)).trans (by decide),
   (forward_to_spec wsActor wsSpace { canvas_id := some "T" } [(1, 1)]
      [⟨some (some 'Z'), none, none, none⟩] (by decide)).trans (by decide)⟩

theorem parse_packet_ok_alive (st : ActorState) (sp : Space) (p : Packet)
    (r : ActorState × Space × List (String × Packet))
    (hpp : parse_packet st sp p = .ok r)
    (hk : isKillPacket p = false) : r.1.alive = st.alive := by
  rcases p with ⟨pc, pch, pmd⟩
  cases pc with
  | none => simp [parse_packet] at hpp
  | some cp =>
    simp only [isKillPacket, decide_eq_false_iff_not] at hk
    simp only [parse_packet] at hpp
    by_cases h1 : cp.cmd = some "write"
    · rw [if_pos h1] at hpp
      cases pch with
      | none => simp at hpp
      | some ch =>
        cases pmd with
        | none => simp at hpp
        | some md =>
            injection hpp with h
            subst h
            rfl
    · rw [if_neg h1] at hpp
      by_cases h2 : cp.cmd = some "forward_to"
      · rw [if_pos h2] at hpp
        cases pch with
        | none => simp at hpp
        | some ch =>
          cases pmd with
          | none => simp at hpp
          | some md =>
              dsimp only at hpp
              by_cases ht : cp.args.canvas_id = some st.canvas_id
              · rw [if_pos ht] at hpp
                injection hpp with h
                subst h
                rfl
              · rw [if_neg ht] at hpp
                by_cases hc : check_host
                    { st with canvas := (zip_and_write st.canvas ch md).1 } sp
                · rw [if_pos hc] at hpp
                  split at hpp
                  · simp at hpp
                  · rw [(emit_forward_ok hpp).1]
                · rw [if_neg hc] at hpp
                  injection hpp with h
                  subst h
                  rfl
      · rw [if_neg h2] at hpp
        by_cases h3 : cp.cmd = some "auto_forward"
        · rw [if_pos h3] at hpp
          cases pch with
          | none => simp at hpp
          | some ch =>
            cases pmd with
            | none => simp at hpp
            | some md =>
                dsimp only at hpp
                by_cases hw : (zip_and_write st.canvas ch md).2 > 0 ∧
                    check_host
                      { st with canvas := (zip_and_write st.canvas ch md).1 } sp
                · rw [if_pos hw] at hpp
                  split at hpp
                  · simp at hpp
                  · rw [(emit_forward_ok hpp).1]
                · rw [if_neg hw] at hpp
                  injection hpp with h
                  subst h
                  rfl
        · rw [if_neg h3] at hpp
          by_cases h4 : cp.cmd = some "clear"
          · rw [if_pos h4] at hpp
            injection hpp with h
            subst h
            rfl
          · rw [if_neg h4] at hpp
            by_cases h5 : cp.cmd = some "resize"
            · rw [if_pos h5] at hpp
              cases hh : cp.args.height with
              | none => rw [hh] at hpp; simp at hpp
              | some hgt =>
                cases hw : cp.args.width with
                | none => rw [hh, hw] at hpp; simp at hpp
                | some wid =>
                    rw [hh, hw] at hpp
                    dsimp only at hpp
                    split at hpp
                    · simp at hpp
                    · rename_i r2 hres
                      injection hpp with h
                      subst h
                      exact resize_canvas_alive hres
            · rw [if_neg h5] at hpp
              by_cases h6 : cp.cmd = some "set_origin"
              · rw [if_pos h6] at hpp
                cases hy : cp.args.y with
                | none => rw [hy] at hpp; simp at hpp
                | some yy =>
                  cases hx : cp.args.x with
                  | none => rw [hy, hx] at hpp; simp at hpp
                  | some xx =>
                      rw [hy, hx] at hpp
                      dsimp only at hpp
                      injection hpp with h
                      subst h
                      exact set_origin_alive st sp (yy, xx)
              · rw [if_neg h6] at hpp
                by_cases h7 : cp.cmd = some "set_host"
                · rw [if_pos h7] at hpp
                  injection hpp with h
                  subst h
                  exact set_host_alive st sp cp.args.host
                · rw [if_neg h7] at hpp
                  by_cases h8 : cp.cmd = some "set_fillvalue"
                  · rw [if_pos h8] at hpp
                    injection hpp with h
                    subst h
                    exact set_fillvalue_alive st sp cp.args.fillvalue
                  · rw [if_neg h8] at hpp
                    by_cases h9 : cp.cmd = some "!kill"
                    · exact absurd h9 hk
                    · rw [if_neg h9] at hpp
                      injection hpp with h
                      subst h
                      rfl

theorem run_step_alive (st : ActorState) (sp : Space) (p : Packet)
    (hk : isKillPacket p = false) : (run_step st sp p).1.alive = st.alive := by
  unfold run_step
  cases hpp : parse_packet st sp p with
  | error e => rfl
  | ok r => exact parse_packet_ok_alive st sp p r hpp hk

/-- C8.  A packet without a command block is NOT the silent no-op the
claim describes: parse_packet dereferences packet.get("command") before
its defensive check, so it raises AttributeError — but it does so before
touching any state, and the run loop's blanket exception handler swallows
it, so the loop iteration leaves actor state and registry exactly as they
were; more generally no packet other than a kill command can clear the
liveness flag, so no malformed packet ever terminates the run loop. -/
theorem missing_command_block_spec (st : ActorState) (sp : Space)
    (ch : List Coord) (md : List PartialCell) (halive : st.alive = true) :
    parse_packet st sp ⟨none, some ch, some md⟩ = .error .attributeError ∧
    run_step st sp ⟨none, some ch, some md⟩ = (st, sp) ∧
    ∀ p : Packet, isKillPacket p = false →
      (run_step st sp p).1.alive = true := by
  refine ⟨rfl, rfl, ?_⟩
  intro p hk
  rw [run_step_alive st sp p hk, halive]

/-- C8, witness: on the sample actor, a packet lacking its command block
raises AttributeError yet leaves actor state and registry untouched, and a
malformed resize packet (missing arguments, raising TypeError inside the
handler) also leaves the actor alive. -/
theorem missing_command_block_witness :
    parse_packet wsActor wsSpace ⟨none, some [(1, 1)], some []⟩ =
      .error .attributeError ∧
    run_step wsActor wsSpace ⟨none, some [(1, 1)], some []⟩ =
      (wsActor, wsSpace) ∧
    (run_step wsActor wsSpace
      ⟨some ⟨some "resize", {}⟩, none, none⟩).1.alive = true :=
  ⟨(missing_command_block_spec wsActor wsSpace [(1, 1)] [] (by decide)).1,
   (missing_command_block_spec wsActor wsSpace [(1, 1)] [] (by decide)).2.1,
   (missing_command_block_spec wsActor wsSpace [(1, 1)] [] (by decide)).2.2
     ⟨some ⟨some "resize", {}⟩, none, none⟩ (by decide)⟩

end SigilEngine
